import Mathlib

/-!
Verification of the digital-infra newsletter generator.

This file shallowly embeds the citation-assembly logic of
`newsletter-generator-ui/lib/api.ts` (`convertToUIFormat` / `convertSection`),
the generation handler and progress-step filtering of
`newsletter-generator-ui/components/header.tsx`, and the player-settings
logic of `newsletter-generator-ui/components/settings-modal.tsx`.
The backend orchestrator (review/fix loop, grounding gate) is not part of
the sources; it is modelled from the specification where needed.
-/

namespace NewsVerif

/-! ## Character-level helpers mirroring the JS regexes in api.ts -/

/-- JS `\s` whitespace class restricted to the ASCII characters relevant here. -/
def isWsChar (c : Char) : Bool :=
  c = ' ' || c = '\t' || c = '\n' || c = '\r' || c = '\x0b' || c = '\x0c'

/-- Case-insensitive hex digit, the `[a-f0-9]` class under the `i` flag. -/
def isHexI (c : Char) : Bool :=
  ('0' ≤ c && c ≤ '9') || ('a' ≤ c && c ≤ 'f') || ('A' ≤ c && c ≤ 'F')

/-- Case-insensitive letter `e` (pattern `ev_` with the `i` flag). -/
def isELetter (c : Char) : Bool := c = 'e' || c = 'E'

/-- Case-insensitive letter `v`. -/
def isVLetter (c : Char) : Bool := c = 'v' || c = 'V'

/-- Tries to match `ev_[a-f0-9]{8}` (case-insensitively) at the head of the
list; on success returns the remainder after the 11 matched characters. -/
def evMatchAt (cs : List Char) : Option (List Char) :=
  match cs with
  | c1 :: c2 :: c3 :: rest =>
    if isELetter c1 && isVLetter c2 && c3 = '_'
        && (rest.take 8).length = 8 && (rest.take 8).all isHexI then
      some (rest.drop 8)
    else none
  | _ => none

/-- Fuel-driven scan collecting all non-overlapping matches of
`ev_[a-f0-9]{8}`, mirroring `text.match(/ev_[a-f0-9]{8}/gi)`. -/
def extractMarkersF : Nat → List Char → List String
  | 0, _ => []
  | _ + 1, [] => []
  | fuel + 1, c :: cs =>
    match evMatchAt (c :: cs) with
    | some rest => String.mk ((c :: cs).take 11) :: extractMarkersF fuel rest
    | none => extractMarkersF fuel cs

/-- All matches of the evidence-id pattern in a character list. -/
def extractMarkers (l : List Char) : List String := extractMarkersF l.length l

/-- Keep-first deduplication with an explicit seen accumulator; this is the
semantics of `[...new Set(xs)]` in JS (insertion order, first occurrence). -/
def dedupFirstAux (seen : List String) : List String → List String
  | [] => []
  | x :: xs =>
    if x ∈ seen then dedupFirstAux seen xs
    else x :: dedupFirstAux (x :: seen) xs

/-- First-occurrence deduplication of a list of strings. -/
def dedupFirst (l : List String) : List String := dedupFirstAux [] l

/-- Index of the first occurrence of a string in a list. -/
def idxOf? : List String → String → Option Nat
  | [], _ => none
  | x :: xs, a => if x = a then some 0 else (idxOf? xs a).map (· + 1)

/-- Does `pat` occur as a contiguous sublist of `l`? -/
def hasSub (pat : List Char) : List Char → Bool
  | [] => pat.isEmpty
  | c :: cs => List.isPrefixOf pat (c :: cs) || hasSub pat cs

/-- Does a character list contain an `ev_[a-f0-9]{8}` marker anywhere? -/
def hasEvMarker : List Char → Bool
  | [] => false
  | c :: cs => (evMatchAt (c :: cs)).isSome || hasEvMarker cs

/-! ## The `stripEvidenceIds` replacement pipeline of api.ts

Each JS `replace` with a global regex is modelled as a left-to-right scan.
As the bracketing patterns use `[^)]*` (resp. `[^\]]*`) for the content, a
match always closes at the first closing delimiter after the opener, so the
scans below implement exactly the leftmost-match global-replace semantics. -/

/-- Splits at the first occurrence of `close`, returning the content before it
and the remainder after it. -/
def splitToClose (close : Char) : List Char → Option (List Char × List Char)
  | [] => none
  | c :: cs =>
    if c = close then some ([], cs)
    else (splitToClose close cs).map (fun p => (c :: p.1, p.2))

/-- Global replace of `\s*\((?:[^)]*ev_[a-f0-9]{8}[^)]*)\)` (and the bracket
variant) with the empty string, with fuel for structural recursion. -/
def stripDelimGroupsF (openC closeC : Char) : Nat → List Char → List Char
  | 0, l => l
  | _ + 1, [] => []
  | fuel + 1, c :: cs =>
    match List.dropWhile isWsChar (c :: cs) with
    | o :: rest =>
      if o = openC then
        match splitToClose closeC rest with
        | some (content, rest2) =>
          if hasEvMarker content then stripDelimGroupsF openC closeC fuel rest2
          else c :: stripDelimGroupsF openC closeC fuel cs
        | none => c :: stripDelimGroupsF openC closeC fuel cs
      else c :: stripDelimGroupsF openC closeC fuel cs
    | [] => c :: cs

/-- Global replace of `\s*\(...\)` groups containing an evidence marker. -/
def stripDelimGroups (openC closeC : Char) (l : List Char) : List Char :=
  stripDelimGroupsF openC closeC l.length l

/-- Global replace of `\s*ev_[a-f0-9]{8}` with the empty string. -/
def stripEvRunsF : Nat → List Char → List Char
  | 0, l => l
  | _ + 1, [] => []
  | fuel + 1, c :: cs =>
    match evMatchAt (List.dropWhile isWsChar (c :: cs)) with
    | some rest => stripEvRunsF fuel rest
    | none => c :: stripEvRunsF fuel cs

/-- Global replace of standalone whitespace-prefixed evidence markers. -/
def stripEvRuns (l : List Char) : List Char := stripEvRunsF l.length l

/-- Global replace of `\(\s*\)` with the empty string. -/
def stripEmptyParensF : Nat → List Char → List Char
  | 0, l => l
  | _ + 1, [] => []
  | fuel + 1, c :: cs =>
    if c = '(' then
      match List.dropWhile isWsChar cs with
      | d :: rest2 =>
        if d = ')' then stripEmptyParensF fuel rest2
        else c :: stripEmptyParensF fuel cs
      | [] => c :: stripEmptyParensF fuel cs
    else c :: stripEmptyParensF fuel cs

/-- Global replace of empty parenthesis pairs. -/
def stripEmptyParens (l : List Char) : List Char := stripEmptyParensF l.length l

/-- Global replace of `\s{2,}` with a single space. -/
def collapseWsF : Nat → List Char → List Char
  | 0, l => l
  | _ + 1, [] => []
  | fuel + 1, c :: cs =>
    if isWsChar c then
      match cs with
      | d :: _ =>
        if isWsChar d then ' ' :: collapseWsF fuel (List.dropWhile isWsChar cs)
        else c :: collapseWsF fuel cs
      | [] => [c]
    else c :: collapseWsF fuel cs

/-- Collapse of whitespace runs of length at least two to one space. -/
def collapseWs (l : List Char) : List Char := collapseWsF l.length l

/-- JS `String.prototype.replace` with a plain-string pattern replaces only the
first occurrence; this handles the two-character patterns used in api.ts
(the pattern `a` then `b` becomes the single character `r`). -/
def replaceFirstPair (a b r : Char) : List Char → List Char
  | [] => []
  | c :: cs =>
    match cs with
    | c2 :: rest =>
      if c = a && c2 = b then r :: rest else c :: replaceFirstPair a b r cs
    | [] => [c]

/-- JS `trim`: removes leading and trailing whitespace. -/
def trimWs (l : List Char) : List Char :=
  (((l.dropWhile isWsChar).reverse).dropWhile isWsChar).reverse

/-- Embedding of `stripEvidenceIds` from `convertToUIFormat` (api.ts): the
eight-step replacement chain applied in source order. -/
def stripEvidenceIds (text : String) : String :=
  String.mk (trimWs
    (replaceFirstPair ' ' '.' '.'
      (replaceFirstPair ' ' ',' ','
        (collapseWs
          (stripEmptyParens
            (stripEvRuns
              (stripDelimGroups '[' ']'
                (stripDelimGroups '(' ')' text.data))))))))

/-- Concatenation of a list of strings, the model of `array.join('')`. -/
def joinAll : List String → String
  | [] => ""
  | s :: rest => s ++ joinAll rest

/-! ## Data model of api.ts -/

/-- JS falsy-or default for optional strings: `o || d` treats both `null`
and the empty string as absent. -/
def jsOr (o : Option String) (d : String) : String :=
  match o with
  | some s => if s = "" then d else s
  | none => d

/-- Association-list lookup, the model of JS object indexing. -/
def alookup {α : Type} : List (String × α) → String → Option α
  | [], _ => none
  | (k, v) :: rest, key => if k = key then some v else alookup rest key

/-- Mirror of the `Bullet` interface of api.ts. -/
structure BulletData where
  text : String
  evidence_ids : List String
  player_referenced : Option String
deriving DecidableEq, Repr

/-- Mirror of the `SectionData` interface of api.ts. -/
structure SectionData where
  section_id : String
  headline : Option String
  big_picture : String
  big_picture_evidence_ids : List String
  bullets : List BulletData
  risk_flags : List String
deriving DecidableEq, Repr

/-- Mirror of the `EvidenceItem` interface of api.ts (with the nested
`data.publish_date` field flattened to an optional string). -/
structure EvidenceItem where
  evidence_id : String
  title : Option String
  source_name : String
  url : Option String
  publish_date : Option String
deriving DecidableEq, Repr

/-- Bullet shape of `SectionForUI`. -/
structure UIBullet where
  text : String
  evidenceId : String
deriving DecidableEq, Repr

/-- Evidence shape of `SectionForUI`. -/
structure UIEvidence where
  id : String
  title : String
  source : String
  url : String
  publishDate : Option String
deriving DecidableEq, Repr

/-- Mirror of the `SectionForUI` interface of api.ts. -/
structure SectionForUI where
  headline : Option String
  bigPicture : String
  bullets : List UIBullet
  evidence : List UIEvidence
deriving DecidableEq, Repr

/-! ## The citation-assembly algorithm of `convertSection` -/

/-- Embedding of `extractEvidenceIds`: all pattern matches in the text, with
first-occurrence deduplication (`[...new Set(matches)]`). -/
def extractEvidenceIds (text : String) : List String :=
  dedupFirst (extractMarkers text.data)

/-- Evidence ids of the big-picture paragraph: the stored id list when
non-empty, otherwise the ids extracted from the paragraph text. -/
def bigPictureIds (s : SectionData) : List String :=
  if s.big_picture_evidence_ids.length > 0 then s.big_picture_evidence_ids
  else extractEvidenceIds s.big_picture

/-- Evidence ids of one bullet: the stored id list when non-empty, otherwise
the ids extracted from the bullet text. -/
def bulletIds (b : BulletData) : List String :=
  if b.evidence_ids.length > 0 then b.evidence_ids
  else extractEvidenceIds b.text

/-- All referenced evidence ids in reading order: paragraph ids first, then
each bullet's ids in bullet order (`allReferencedIds` in api.ts). -/
def allReferencedIds (s : SectionData) : List String :=
  bigPictureIds s ++ (s.bullets.map bulletIds).flatten

/-- First-occurrence deduplication of the referenced ids (`uniqueIds`). -/
def uniqueIds (s : SectionData) : List String :=
  dedupFirst (allReferencedIds s)

/-- The display-number map `idToNum`: position of the id in `uniqueIds`
plus one; `none` for ids that are not referenced. -/
def idToNum (uniq : List String) (id : String) : Option Nat :=
  (idxOf? uniq id).map (· + 1)

/-- Concatenation of `[n]` citation markers with a single leading space when
the number list is non-empty. -/
def citeString (nums : List Nat) : String :=
  if nums.length > 0 then
    " " ++ joinAll (nums.map (fun n => "[" ++ toString n ++ "]"))
  else ""

/-- The display numbers cited after the big picture: first three paragraph
ids, mapped through `idToNum`, dropping misses (`filter(Boolean)`). -/
def bpCiteNums (s : SectionData) : List Nat :=
  ((bigPictureIds s).take 3).filterMap (idToNum (uniqueIds s))

/-- Conversion of one bullet: stripped text with at most two citations
appended, and the raw first stored evidence id (`b.evidence_ids[0] || ''`). -/
def convertBullet (uniq : List String) (b : BulletData) : UIBullet :=
  { text := stripEvidenceIds b.text
      ++ citeString (((bulletIds b).take 2).filterMap (idToNum uniq)),
    evidenceId := jsOr (b.evidence_ids.head?) "" }

/-- Sort key used for the referenced-evidence list:
`idToNum[a.evidence_id] || 999`. -/
def evSortKey (uniq : List String) (e : EvidenceItem) : Nat :=
  (idToNum uniq e.evidence_id).getD 999

/-- UI projection of one evidence item (`e.title || 'Source'`,
`e.url || '#'`). -/
def toUIEvidence (e : EvidenceItem) : UIEvidence :=
  { id := e.evidence_id,
    title := jsOr e.title "Source",
    source := e.source_name,
    url := jsOr e.url "#",
    publishDate := e.publish_date }

/-- The emitted evidence list: pack items filtered to the referenced ids,
sorted by display number, projected to UI shape (`referencedEvidence`). -/
def referencedEvidence (s : SectionData) (items : List EvidenceItem) :
    List UIEvidence :=
  (List.insertionSort
      (fun a b => evSortKey (uniqueIds s) a ≤ evSortKey (uniqueIds s) b)
      (items.filter (fun e => (uniqueIds s).contains e.evidence_id))).map
    toUIEvidence

/-- Embedding of `convertSection` applied to a present section and its
(possibly empty) evidence-pack item list. -/
def convertSectionData (s : SectionData) (items : List EvidenceItem) :
    SectionForUI :=
  { headline := s.headline,
    bigPicture := stripEvidenceIds s.big_picture ++ citeString (bpCiteNums s),
    bullets := s.bullets.map (convertBullet (uniqueIds s)),
    evidence := referencedEvidence s items }

/-- Embedding of `convertSection`: section lookup with the empty fallback for
a missing section, and `evidencePack?.items || []` for a missing pack. -/
def convertSection (sections : List (String × SectionData))
    (packs : List (String × List EvidenceItem)) (sectionId : String) :
    SectionForUI :=
  match alookup sections sectionId with
  | none => { headline := none, bigPicture := "", bullets := [], evidence := [] }
  | some s => convertSectionData s ((alookup packs sectionId).getD [])

/-! ## Full `convertToUIFormat` -/

/-- Mirror of the `NewsletterMeta` interface of api.ts. -/
structure NewsletterMeta where
  newsletter_id : String
  original_prompt : String
  time_window_start : String
  time_window_end : String
  voice_profile : String
  region_focus : Option String
  style_prompt : Option String
  verticals_included : List String
  created_at : String
deriving DecidableEq, Repr

/-- The three per-vertical sections of `NewsletterDetail`. -/
structure SectionsUI where
  dataCenters : SectionForUI
  connectivity : SectionForUI
  towers : SectionForUI
deriving DecidableEq, Repr

/-- Mirror of the `NewsletterDetail` interface of api.ts. -/
structure NewsletterDetail where
  id : String
  title : String
  date : String
  time_window_start : String
  time_window_end : String
  voiceProfile : String
  verticals : List String
  regions : List String
  createdAt : String
  sections : SectionsUI
deriving DecidableEq, Repr

/-- The `verticalMap` display names of api.ts. -/
def verticalMapName (v : String) : String :=
  if v = "data_centers" then "Data Centers"
  else if v = "connectivity_fibre" then "Connectivity & Fibre"
  else if v = "towers_wireless" then "Towers & Wireless"
  else v

/-- Digits of a decimal string parsed as a number, `none` when any character
is not a digit or the string is empty. -/
def parseNatDigits (s : String) : Option Nat :=
  if s.length > 0 && s.data.all (fun c => '0' ≤ c && c ≤ '9') then
    some (s.data.foldl (fun acc c => acc * 10 + (c.toNat - '0'.toNat)) 0)
  else none

/-- Short month names used by `toLocaleDateString('en-GB', ...)`. -/
def monthShortName (m : Nat) : String :=
  (["Jan", "Feb", "Mar", "Apr", "May", "Jun", "Jul", "Aug", "Sep", "Oct",
    "Nov", "Dec"]).getD (m - 1) ""

/-- Deterministic model of
`new Date(d).toLocaleDateString('en-GB', { month, day, year })` on an
ISO `yyyy-mm-dd` string. -/
def formatDateEnGB (iso : String) : String :=
  match iso.splitOn "-" with
  | [y, m, d] =>
    match parseNatDigits y, parseNatDigits m, parseNatDigits d with
    | some yn, some mn, some dn =>
      if 1 ≤ mn && mn ≤ 12 then
        toString dn ++ " " ++ monthShortName mn ++ " " ++ toString yn
      else "Invalid Date"
    | _, _, _ => "Invalid Date"
  | _ => "Invalid Date"

/-- The `yyyy-mm-dd` string parsed out of a `newsletter_YYYYMMDD_xxxxxx` id
(`split('_')[1]` then three substrings). -/
def datePartOf (newsletterId : String) : String :=
  let datePart := (newsletterId.splitOn "_").getD 1 ""
  let year := String.mk (datePart.data.take 4)
  let month := String.mk ((datePart.data.drop 4).take 2)
  let day := String.mk ((datePart.data.drop 6).take 2)
  year ++ "-" ++ month ++ "-" ++ day

/-- Embedding of `convertToUIFormat` (api.ts): metadata projection plus the
three converted sections. -/
def convertToUIFormat (meta : NewsletterMeta)
    (sections : List (String × SectionData))
    (packs : List (String × List EvidenceItem)) : NewsletterDetail :=
  let formattedDate := datePartOf meta.newsletter_id
  { id := meta.newsletter_id,
    title := "Digital Infra Newsletter — " ++ formatDateEnGB formattedDate,
    date := formattedDate,
    time_window_start := meta.time_window_start,
    time_window_end := meta.time_window_end,
    voiceProfile := meta.voice_profile,
    verticals := meta.verticals_included.map verticalMapName,
    regions := match meta.region_focus with
      | some r => if r = "" then ["Global"] else [r]
      | none => ["Global"],
    createdAt := meta.created_at,
    sections :=
      { dataCenters := convertSection sections packs "data_centers",
        connectivity := convertSection sections packs "connectivity_fibre",
        towers := convertSection sections packs "towers_wireless" } }

/-! ## Generation view (header.tsx): progress steps and the generate handler -/

/-- Status of one progress step. -/
inductive StepStatus where
  | pending
  | active
  | complete
deriving DecidableEq, Repr

/-- Mirror of the `StatusStep` interface. -/
structure StatusStep where
  id : String
  label : String
  status : StepStatus
deriving DecidableEq, Repr

/-- The `allSteps` constant of header.tsx. -/
def allSteps : List StatusStep :=
  [{ id := "manager", label := "Initializing run", status := .pending },
   { id := "research_dc", label := "Researching Data Centers", status := .pending },
   { id := "research_cf", label := "Researching Connectivity", status := .pending },
   { id := "research_tw", label := "Researching Towers", status := .pending },
   { id := "review", label := "Reviewing content", status := .pending },
   { id := "editor", label := "Editor finalising", status := .pending },
   { id := "assemble", label := "Assembling newsletter", status := .pending }]

/-- Vertical selection checkboxes of the generation view. -/
structure VerticalsSel where
  dataCenters : Bool
  connectivity : Bool
  towers : Bool
deriving DecidableEq, Repr

/-- Embedding of `getFilteredSteps`: drops the research step of every
unselected vertical, keeps everything else. -/
def getFilteredSteps (sel : VerticalsSel) : List StatusStep :=
  allSteps.filter (fun step =>
    if step.id = "research_dc" && !sel.dataCenters then false
    else if step.id = "research_cf" && !sel.connectivity then false
    else if step.id = "research_tw" && !sel.towers then false
    else true)

/-- The `parallelSteps` constant of `updateStep`. -/
def parallelSteps : List String := ["research_dc", "research_cf", "research_tw"]

/-- Update applied by `updateStep` to one step of the list. -/
def updateStepOne (stepId : String) (status : StepStatus)
    (step : StatusStep) : StatusStep :=
  if step.id = stepId then { step with status := status }
  else if status = .active && parallelSteps.contains stepId
      && parallelSteps.contains step.id then step
  else if status = .active && step.status = .active && step.id ≠ stepId
      && !parallelSteps.contains step.id then { step with status := .complete }
  else step

/-- Embedding of `updateStep`: sets the named step's status; on activation of
a non-research step, completes the previously active non-research steps. -/
def updateStep (stepId : String) (status : StepStatus)
    (steps : List StatusStep) : List StatusStep :=
  steps.map (updateStepOne stepId status)

/-- The ids sent as `verticals` in the request (`selectedVerticalIds`). -/
def selectedVerticalIds (sel : VerticalsSel) : List String :=
  (if sel.dataCenters then ["data_centers"] else [])
  ++ (if sel.connectivity then ["connectivity_fibre"] else [])
  ++ (if sel.towers then ["towers_wireless"] else [])

/-- Request payload assembled by `handleGenerate` before calling the API. -/
structure GenerateRequestModel where
  time_window_start : String
  time_window_end : String
  region_focus : Option String
  max_review_rounds : Nat
  active_players : List (String × List String)
  verticals : List String
  search_provider : String
  strict_date_filtering : Bool
deriving DecidableEq, Repr

/-- Outcome of invoking the generation handler: either an error toast with no
backend request, or a streaming request with the initial pending step list. -/
inductive GenOutcome where
  | aborted (toastTitle toastDescription : String)
  | requested (req : GenerateRequestModel) (initialSteps : List StatusStep)
deriving DecidableEq, Repr

/-- Embedding of the entry logic of `handleGenerate` (header.tsx): the
no-vertical guard, the step-list reset to the filtered pending steps, and the
request payload passed to `generateNewsletterStreaming`. -/
def handleGenerate (sel : VerticalsSel) (startDate endDate : String)
    (regions : List String) (reviewRounds : Nat)
    (activePlayers : List (String × List String)) (searchProvider : String)
    (strictDateFiltering : Bool) : GenOutcome :=
  if !(sel.dataCenters || sel.connectivity || sel.towers) then
    .aborted "Error" "Select at least one sector to generate a newsletter"
  else
    let regionFocus :=
      if regions.length > 0 && regions.length < 6 then
        some (String.intercalate ", " regions)
      else none
    .requested
      { time_window_start := startDate,
        time_window_end := endDate,
        region_focus := regionFocus,
        max_review_rounds := reviewRounds,
        active_players := activePlayers,
        verticals := selectedVerticalIds sel,
        search_provider := searchProvider,
        strict_date_filtering := strictDateFiltering }
      ((getFilteredSteps sel).map (fun s => { s with status := .pending }))

/-! ## Settings modal (settings-modal.tsx): player settings -/

/-- Default data-centre players of settings-modal.tsx. -/
def dataCentersPlayers : List String :=
  ["Equinix", "Digital Realty", "CyrusOne", "QTS Data Centers",
   "NTT Global Data Centers", "Iron Mountain Data Centers", "Switch",
   "STACK Infrastructure", "Google Cloud", "Amazon Web Services (AWS)"]

/-- Default connectivity players of settings-modal.tsx. -/
def connectivityPlayers : List String :=
  ["Lumen Technologies", "Zayo", "Crown Castle Fiber",
   "Colt Technology Services", "euNetworks", "CityFibre", "Openreach",
   "Telxius", "Sparkle (Telecom Italia Sparkle)", "Subsea7"]

/-- Default towers players of settings-modal.tsx. -/
def towersPlayers : List String :=
  ["American Tower", "Cellnex Telecom", "Vantage Towers",
   "SBA Communications", "IHS Towers", "Indus Towers", "Crown Castle",
   "Phoenix Tower International", "Helios Towers", "DigitalBridge"]

/-- The `DEFAULT_PLAYERS` constant of settings-modal.tsx. -/
def DEFAULT_PLAYERS : List (String × List String) :=
  [("data_centers", dataCentersPlayers),
   ("connectivity_fibre", connectivityPlayers),
   ("towers_wireless", towersPlayers)]

/-- Parsed `PlayerSettings` storage: per vertical, per player, a flag. -/
abbrev PlayerSettings : Type := List (String × List (String × Bool))

/-- Parsed `PlayerNames` storage: per vertical, custom names per player. -/
abbrev PlayerNames : Type := List (String × List (String × String))

/-- Updates the value at a key of a JS-object-like association list,
appending the key when absent. -/
def setKey {α : Type} (m : List (String × α)) (k : String) (v : α) :
    List (String × α) :=
  if (alookup m k).isSome then
    m.map (fun p => if p.1 = k then (k, v) else p)
  else m ++ [(k, v)]

/-- The migration loop body of `getPlayerSettings`: every default player that
has no stored flag gets the explicit flag `true`. -/
def migrateVertical (stored : List (String × Bool)) (players : List String) :
    List (String × Bool) :=
  stored ++ (players.filter (fun p => (alookup stored p).isNone)).map
    (fun p => (p, true))

/-- Embedding of `getPlayerSettings`: the parsed stored settings when present
(with the migration filling in `true` for every missing default player and
missing vertical), else the all-`true` defaults. A storage value that fails
to parse is modelled as `none`. -/
def getPlayerSettings (stored : Option PlayerSettings) : PlayerSettings :=
  match stored with
  | some parsed =>
    DEFAULT_PLAYERS.foldl
      (fun acc vp =>
        setKey acc vp.1 (migrateVertical ((alookup acc vp.1).getD []) vp.2))
      parsed
  | none =>
    DEFAULT_PLAYERS.map (fun vp => (vp.1, vp.2.map (fun p => (p, true))))

/-- Display name of a player: the stored custom name unless absent or empty
(`verticalNames[player] || player`). -/
def displayName (verticalNames : List (String × String)) (p : String) :
    String :=
  jsOr (alookup verticalNames p) p

/-- Embedding of `getActivePlayers`: per vertical, the default players whose
flag in the (migrated) settings is exactly `true`, each mapped through its
custom name. -/
def getActivePlayers (stored : Option PlayerSettings) (names : PlayerNames) :
    List (String × List String) :=
  let settings := getPlayerSettings stored
  DEFAULT_PLAYERS.map (fun vp =>
    let vs := (alookup settings vp.1).getD []
    let vn := (alookup names vp.1).getD []
    (vp.1,
      (vp.2.filter (fun p => alookup vs p = some true)).map (displayName vn)))

/-! ## Spec-modelled backend: grounding gate and the bounded fix loop

The reviewer, section drafter and orchestrator live in the backend service,
which is not part of these sources; the definitions below are modelled from
the specification. -/

/-- Modelled from the spec: a Bullet of a backend Draft, text plus the
evidence ids it cites (the backend Draft type is not under the sources). -/
structure SpecBullet where
  text : String
  cites : List String
deriving DecidableEq, Repr

/-- Modelled from the spec: a backend Draft, a paragraph with its cited
evidence ids plus an ordered bullet list. -/
structure SpecDraft where
  paragraph : String
  paragraphCites : List String
  bullets : List SpecBullet
deriving DecidableEq, Repr

/-- Modelled from the spec: a ReviewScore with the five rubric dimensions
and the blocking-issue list. -/
structure SpecReviewScore where
  grounding : Nat
  clarity : Nat
  newsworthiness : Nat
  balance : Nat
  voiceFit : Nat
  blockingIssues : List String
deriving DecidableEq, Repr

/-- Modelled from the spec: an id list is grounded in a pack when at least
one cited id exists in the pack. -/
def citesGrounded (cites : List String) (pack : List String) : Bool :=
  cites.any (fun id => pack.contains id)

/-- Modelled from the spec: the Section Drafter's citation validation — the
paragraph and every bullet must cite at least one id present in the pack. -/
def draftCitationValid (d : SpecDraft) (pack : List String) : Bool :=
  citesGrounded d.paragraphCites pack
  && d.bullets.all (fun b => citesGrounded b.cites pack)

/-- Modelled from the spec: the fail-fast submission gate — a draft failing
citation validation is never handed to the Reviewer. -/
def submitToReviewer (d : SpecDraft) (pack : List String) : Option SpecDraft :=
  if draftCitationValid d pack then some d else none

/-- Modelled from the spec: the deterministic acceptance predicate,
grounding ≥ 4 and clarity ≥ 4 and no blocking issues. -/
def scoreAccepts (sc : SpecReviewScore) : Bool :=
  4 ≤ sc.grounding && 4 ≤ sc.clarity && sc.blockingIssues.isEmpty

/-- Modelled from the spec: the Reviewer accepts a draft when the submission
gate let it through and the rubric acceptance predicate holds; a draft
violating the grounding invariant is not eligible for acceptance. -/
def reviewerAccepts (d : SpecDraft) (pack : List String)
    (sc : SpecReviewScore) : Bool :=
  match submitToReviewer d pack with
  | some _ => scoreAccepts sc
  | none => false

/-- Modelled from the spec: per-unit status of the orchestrator state
machine. -/
inductive UStatus where
  | pending
  | drafting
  | underReview
  | needsFix
  | accepted
  | failed
deriving DecidableEq, Repr

/-- Terminal statuses of a unit. -/
def terminalU : UStatus → Bool
  | .accepted => true
  | .failed => true
  | _ => false

/-- Modelled from the spec: one Reviewer pass over the units — every unit
under review is either accepted or sent to fixing, driven by the abstract
per-round accept oracle. -/
def reviewStep (accept : String → Bool) (us : List (String × UStatus)) :
    List (String × UStatus) :=
  us.map (fun nu =>
    (nu.1, if nu.2 = .underReview
      then (if accept nu.1 then .accepted else .needsFix) else nu.2))

/-- Modelled from the spec: the accept-what-you-have policy — every unit in
`needs_fix` is forcibly moved to `accepted` with its last draft. -/
def forceAcceptAll (us : List (String × UStatus)) : List (String × UStatus) :=
  us.map (fun nu => (nu.1, if nu.2 = .needsFix then .accepted else nu.2))

/-- Modelled from the spec: the fix router sends units in `needs_fix` back
through drafting into the next review. -/
def redraftStep (us : List (String × UStatus)) : List (String × UStatus) :=
  us.map (fun nu => (nu.1, if nu.2 = .needsFix then .underReview else nu.2))

/-- Modelled from the spec: the bounded review/fix loop. `roundsLeft` is
`max_review_rounds` minus the rounds already consumed, so the round counter
exceeds the maximum exactly when it reaches zero; the returned number counts
the `reviewing → fixing` transitions taken. -/
def fixLoopGo (accept : Nat → String → Bool) (round : Nat) :
    Nat → List (String × UStatus) → Nat × List (String × UStatus)
  | roundsLeft, us =>
    let us1 := reviewStep (accept round) us
    if us1.all (fun nu => terminalU nu.2) then (0, us1)
    else
      match roundsLeft with
      | 0 => (1, forceAcceptAll us1)
      | rl + 1 =>
        let r := fixLoopGo accept (round + 1) rl (redraftStep us1)
        (r.1 + 1, r.2)

/-- Modelled from the spec: the full fix loop starting at round one with the
configured maximum number of review rounds. -/
def fixLoop (accept : Nat → String → Bool) (maxReviewRounds : Nat)
    (us : List (String × UStatus)) : Nat × List (String × UStatus) :=
  fixLoopGo accept 1 maxReviewRounds us

/-! ## Specification-side formulations used to state refinement claims -/

/-- Specification-side reading of the Assembler algorithm: scan the ids in
reading order and collect each id the first time it is seen. Stated with a
fold so it is independent of the implementation's `dedupFirst`. -/
def scanFirstSeen (l : List String) : List String :=
  l.foldl (fun acc id => if id ∈ acc then acc else acc ++ [id]) []

/-- Flag stored for one default player before any migration: `none` when the
storage is missing, fails to parse, or has no entry for the player. -/
def storedFlag (stored : Option PlayerSettings) (v p : String) : Option Bool :=
  match stored with
  | some parsed => alookup ((alookup parsed v).getD []) p
  | none => none

/-! ## Concrete data used by witnesses and counterexamples -/

/-- Sample bullet with stored evidence ids. -/
def sampleBullet : BulletData :=
  { text := "Equinix expanded capacity ev_bbbb1111",
    evidence_ids := ["ev_bbbb1111", "ev_aaaa0000"],
    player_referenced := some "Equinix" }

/-- Sample section whose paragraph cites one id and whose bullet cites two. -/
def sampleSection : SectionData :=
  { section_id := "data_centers",
    headline := some "Capacity",
    big_picture := "Capacity grew ev_aaaa0000.",
    big_picture_evidence_ids := ["ev_aaaa0000"],
    bullets := [sampleBullet],
    risk_flags := [] }

/-- Sample evidence pack covering both referenced ids, pack order opposite
to citation order. -/
def sampleItems : List EvidenceItem :=
  [{ evidence_id := "ev_bbbb1111", title := some "Item B",
     source_name := "News", url := some "https://b.example",
     publish_date := none },
   { evidence_id := "ev_aaaa0000", title := none, source_name := "Wire",
     url := none, publish_date := some "2025-01-02" }]

/-- Section exercising both defects of the marker-replacement claim: four
paragraph ids (so the fourth display number is never cited) and a bullet
text where removing one marker splices a new marker together. -/
def cexSection : SectionData :=
  { section_id := "data_centers",
    headline := some "H",
    big_picture := "Hello world.",
    big_picture_evidence_ids :=
      ["ev_00000001", "ev_00000002", "ev_00000003", "ev_00000004"],
    bullets := [{ text := "ev_ev_aaaaaaaabbbbbbbb", evidence_ids := [],
                  player_referenced := none }],
    risk_flags := [] }

/-- Sample metadata for the determinism witness. -/
def sampleMeta : NewsletterMeta :=
  { newsletter_id := "newsletter_20250102_abc123",
    original_prompt := "infra briefing",
    time_window_start := "2024-12-26",
    time_window_end := "2025-01-02",
    voice_profile := "expert_operator",
    region_focus := some "UK, EU",
    style_prompt := none,
    verticals_included := ["data_centers"],
    created_at := "2025-01-02T10:00:00Z" }

/-- Sample stored settings with one vertical present but empty, the shape
that triggers the migration of absent flags to `true`. -/
def cexStored : Option PlayerSettings := some [("data_centers", [])]

/-- Oracle that never accepts, used by the fix-loop witness. -/
def neverAccept : Nat → String → Bool := fun _ _ => false

/-- One unit entering review, used by the fix-loop witness. -/
def oneUnitUnderReview : List (String × UStatus) :=
  [("data_centers", UStatus.underReview)]

/-- Vertical selection with nothing selected. -/
def noVerticals : VerticalsSel :=
  { dataCenters := false, connectivity := false, towers := false }

/-- First emitted evidence entry of the sample section, display number one. -/
def sampleUIEvidence : UIEvidence :=
  { id := "ev_aaaa0000", title := "Source", source := "Wire", url := "#",
    publishDate := some "2025-01-02" }

/-! ## Helper lemmas on deduplication and indexing -/

theorem mem_dedupFirstAux {a : String} :
    ∀ (l seen : List String), a ∈ dedupFirstAux seen l ↔ (a ∈ l ∧ a ∉ seen) := by
  intro l
  induction l with
  | nil => intro seen; simp [dedupFirstAux]
  | cons x xs ih =>
    intro seen
    by_cases hx : x ∈ seen
    · rw [dedupFirstAux, if_pos hx, ih seen]
      simp only [List.mem_cons]
      constructor
      · rintro ⟨h1, h2⟩; exact ⟨Or.inr h1, h2⟩
      · rintro ⟨h1 | h1, h2⟩
        · exact absurd (h1 ▸ hx) h2
        · exact ⟨h1, h2⟩
    · rw [dedupFirstAux, if_neg hx]
      simp only [List.mem_cons, ih (x :: seen)]
      constructor
      · rintro (rfl | ⟨h1, h2⟩)
        · exact ⟨Or.inl rfl, hx⟩
        · exact ⟨Or.inr h1, fun hmem => h2 (Or.inr hmem)⟩
      · rintro ⟨rfl | h1, h2⟩
        · exact Or.inl rfl
        · by_cases hax : a = x
          · exact Or.inl hax
          · exact Or.inr ⟨h1, by simp [hax, h2]⟩

theorem nodup_dedupFirstAux :
    ∀ (l seen : List String), (dedupFirstAux seen l).Nodup := by
  intro l
  induction l with
  | nil => intro seen; simp [dedupFirstAux]
  | cons x xs ih =>
    intro seen
    by_cases hx : x ∈ seen
    · rw [dedupFirstAux, if_pos hx]; exact ih seen
    · rw [dedupFirstAux, if_neg hx]
      refine List.Nodup.cons ?_ (ih (x :: seen))
      intro hmem
      exact ((mem_dedupFirstAux xs (x :: seen)).1 hmem).2 (List.mem_cons_self x seen)

theorem mem_dedupFirst {a : String} {l : List String} :
    a ∈ dedupFirst l ↔ a ∈ l := by
  rw [dedupFirst, mem_dedupFirstAux]
  simp

theorem nodup_dedupFirst (l : List String) : (dedupFirst l).Nodup :=
  nodup_dedupFirstAux l []

theorem idxOf?_getElem? {a : String} :
    ∀ {l : List String} {i : Nat}, idxOf? l a = some i → l[i]? = some a := by
  intro l
  induction l with
  | nil => intro i h; simp [idxOf?] at h
  | cons x xs ih =>
    intro i h
    rw [idxOf?] at h
    by_cases hx : x = a
    · rw [if_pos hx] at h
      cases h
      simpa using hx
    · rw [if_neg hx] at h
      rcases Option.map_eq_some'.1 h with ⟨j, hj, rfl⟩
      simpa using ih hj

theorem getElem?_idxOf? {a : String} :
    ∀ {l : List String} {i : Nat}, l.Nodup → l[i]? = some a →
      idxOf? l a = some i := by
  intro l
  induction l with
  | nil => intro i _ h; simp at h
  | cons x xs ih =>
    intro i hnd h
    cases i with
    | zero =>
      simp only [List.getElem?_cons_zero, Option.some.injEq] at h
      rw [idxOf?, if_pos h]
    | succ j =>
      simp only [List.getElem?_cons_succ] at h
      have hmem : a ∈ xs := List.getElem?_mem h
      have hx : x ≠ a := by
        rintro rfl
        exact (List.nodup_cons.1 hnd).1 hmem
      rw [idxOf?, if_neg hx, ih (List.nodup_cons.1 hnd).2 h]
      rfl

theorem idxOf?_isSome_of_mem {a : String} :
    ∀ {l : List String}, a ∈ l → (idxOf? l a).isSome = true := by
  intro l
  induction l with
  | nil => intro h; simp at h
  | cons x xs ih =>
    intro h
    rw [idxOf?]
    by_cases hx : x = a
    · rw [if_pos hx]; rfl
    · rw [if_neg hx]
      rcases List.mem_cons.1 h with rfl | hmem
      · exact absurd rfl hx
      · rcases Option.isSome_iff_exists.1 (ih hmem) with ⟨j, hj⟩
        rw [hj]; rfl

theorem dedupFirstAux_congr :
    ∀ (l s₁ s₂ : List String), (∀ x, x ∈ s₁ ↔ x ∈ s₂) →
      dedupFirstAux s₁ l = dedupFirstAux s₂ l := by
  intro l
  induction l with
  | nil => intro s₁ s₂ _; rfl
  | cons x xs ih =>
    intro s₁ s₂ hiff
    by_cases hx : x ∈ s₁
    · rw [dedupFirstAux, if_pos hx, dedupFirstAux, if_pos ((hiff x).1 hx)]
      exact ih s₁ s₂ hiff
    · rw [dedupFirstAux, if_neg hx, dedupFirstAux,
        if_neg (fun hmem => hx ((hiff x).2 hmem))]
      refine congrArg (x :: ·) (ih (x :: s₁) (x :: s₂) ?_)
      intro y
      simp only [List.mem_cons]
      exact or_congr Iff.rfl (hiff y)

theorem foldl_firstSeen :
    ∀ (l acc : List String),
      List.foldl (fun acc id => if id ∈ acc then acc else acc ++ [id]) acc l
        = acc ++ dedupFirstAux acc l := by
  intro l
  induction l with
  | nil => intro acc; simp [dedupFirstAux]
  | cons x xs ih =>
    intro acc
    by_cases hx : x ∈ acc
    · rw [List.foldl_cons, if_pos hx, ih acc, dedupFirstAux, if_pos hx]
    · rw [List.foldl_cons, if_neg hx, ih (acc ++ [x]), dedupFirstAux, if_neg hx]
      rw [dedupFirstAux_congr xs (acc ++ [x]) (x :: acc) (by intro y; simp [or_comm])]
      simp

theorem scanFirstSeen_eq_dedupFirst (l : List String) :
    scanFirstSeen l = dedupFirst l := by
  rw [scanFirstSeen, foldl_firstSeen l [], dedupFirst]
  rfl

/-! ## Claim C2: per-unit first-seen sequential display numbering -/

/-- C2: for every assembled section, the evidence ids are collected in
reading order (paragraph first, then bullets in order), keeping the first
occurrence of each id, and the display-number map assigns the id at
position `i` of that order the number `i + 1` — sequential numbers starting
at 1, scoped to the section alone. -/
theorem assembler_numbering_first_seen_sequential (s : SectionData) :
    uniqueIds s = scanFirstSeen (allReferencedIds s)
    ∧ (uniqueIds s).Nodup
    ∧ (∀ i id, (uniqueIds s)[i]? = some id →
        idToNum (uniqueIds s) id = some (i + 1))
    ∧ ∀ id n, idToNum (uniqueIds s) id = some n →
        1 ≤ n ∧ (uniqueIds s)[n - 1]? = some id := by
  refine ⟨(scanFirstSeen_eq_dedupFirst _).symm, nodup_dedupFirst _, ?_, ?_⟩
  · intro i id h
    have hnd : (uniqueIds s).Nodup := nodup_dedupFirst _
    rw [idToNum, getElem?_idxOf? hnd h]
    rfl
  · intro id n h
    rw [idToNum] at h
    rcases Option.map_eq_some'.1 h with ⟨j, hj, rfl⟩
    exact ⟨Nat.succ_le_succ (Nat.zero_le j), by simpa using idxOf?_getElem? hj⟩

/-- Witness for C2 at the sample section: the first-seen order is
`[ev_aaaa0000, ev_bbbb1111]` and the second id gets display number 2. -/
theorem assembler_numbering_first_seen_sequential_witness :
    uniqueIds sampleSection = scanFirstSeen (allReferencedIds sampleSection)
    ∧ idToNum (uniqueIds sampleSection) "ev_bbbb1111" = some 2 :=
  ⟨(assembler_numbering_first_seen_sequential sampleSection).1,
   (assembler_numbering_first_seen_sequential sampleSection).2.2.1 1
     "ev_bbbb1111" (by decide)⟩

/-! ## Claim C3: the emitted evidence list only holds referenced pack items -/

/-- C3: every entry of the emitted evidence list of a converted section comes
from the section's pack and its id is referenced by the big-picture paragraph
or by some bullet; nothing unreferenced is emitted. -/
theorem emitted_evidence_subset_referenced (s : SectionData)
    (items : List EvidenceItem) :
    ∀ e ∈ (convertSectionData s items).evidence,
      (∃ it ∈ items, it.evidence_id = e.id ∧ toUIEvidence it = e)
      ∧ e.id ∈ uniqueIds s
      ∧ (e.id ∈ bigPictureIds s ∨ ∃ b ∈ s.bullets, e.id ∈ bulletIds b) := by
  intro e he
  rcases List.mem_map.1 he with ⟨ev, hev, rfl⟩
  rw [List.mem_insertionSort] at hev
  rcases List.mem_filter.1 hev with ⟨hitems, hpred⟩
  have hmemu : ev.evidence_id ∈ uniqueIds s :=
    List.mem_of_elem_eq_true hpred
  refine ⟨⟨ev, hitems, rfl, rfl⟩, hmemu, ?_⟩
  have hall : ev.evidence_id ∈ allReferencedIds s := mem_dedupFirst.1 hmemu
  rcases List.mem_append.1 hall with hbp | hbul
  · exact Or.inl hbp
  · rcases List.mem_flatten.1 hbul with ⟨ids, hids, hmem⟩
    rcases List.mem_map.1 hids with ⟨b, hb, rfl⟩
    exact Or.inr ⟨b, hb, hmem⟩

/-- Witness for C3: the first emitted evidence entry of the sample section
comes from the sample pack and is referenced by the paragraph. -/
theorem emitted_evidence_subset_referenced_witness :
    (∃ it ∈ sampleItems, it.evidence_id = sampleUIEvidence.id
        ∧ toUIEvidence it = sampleUIEvidence)
    ∧ sampleUIEvidence.id ∈ uniqueIds sampleSection
    ∧ (sampleUIEvidence.id ∈ bigPictureIds sampleSection
        ∨ ∃ b ∈ sampleSection.bullets, sampleUIEvidence.id ∈ bulletIds b) :=
  emitted_evidence_subset_referenced sampleSection sampleItems
    sampleUIEvidence (by decide)

/-! ## Claim C9: citation numbers resolve to the right source -/

theorem insertionSort_map_eq {α : Type} (f : α → String) (key : α → Nat)
    (u : List String) (hu : u.Nodup)
    (hkey : ∀ a : α, f a ∈ u →
      (idxOf? u (f a)).map (fun i => i + 1) = some (key a))
    (l : List α) (hmem : ∀ a, a ∈ List.map f l ↔ a ∈ u)
    (hndl : (List.map f l).Nodup) :
    List.map f (List.insertionSort (fun a b => key a ≤ key b) l) = u := by
  haveI : IsTotal α (fun a b => key a ≤ key b) := ⟨fun a b => Nat.le_total _ _⟩
  haveI : IsTrans α (fun a b => key a ≤ key b) :=
    ⟨fun a b c hab hbc => Nat.le_trans hab hbc⟩
  have hperm : (List.insertionSort (fun a b => key a ≤ key b) l).Perm l :=
    List.perm_insertionSort _ l
  have hsorted : List.Sorted (fun a b => key a ≤ key b)
      (List.insertionSort (fun a b => key a ≤ key b) l) :=
    List.sorted_insertionSort _ l
  have hpermu :
      (List.map f (List.insertionSort (fun a b => key a ≤ key b) l)).Perm u :=
    (hperm.map f).trans ((List.perm_ext_iff_of_nodup hndl hu).2 hmem)
  have hnds :
      (List.map f (List.insertionSort (fun a b => key a ≤ key b) l)).Nodup :=
    hpermu.nodup_iff.2 hu
  haveI : IsAntisymm String
      (fun a b => (idxOf? u a).getD 0 < (idxOf? u b).getD 0) :=
    ⟨fun a b h1 h2 => absurd h2 (Nat.lt_asymm h1)⟩
  refine List.eq_of_perm_of_sorted
    (r := fun a b => (idxOf? u a).getD 0 < (idxOf? u b).getD 0) hpermu ?_ ?_
  · rw [List.Sorted, List.pairwise_map]
    have h1 : List.Pairwise (fun a b => key a ≤ key b)
        (List.insertionSort (fun a b => key a ≤ key b) l) := hsorted
    have h2 : List.Pairwise (fun a b => f a ≠ f b)
        (List.insertionSort (fun a b => key a ≤ key b) l) :=
      List.pairwise_map.1 hnds
    refine (h1.and h2).imp_of_mem ?_
    intro a b ha hb hab
    have hfa : f a ∈ u :=
      (hmem (f a)).1 (List.mem_map_of_mem f (hperm.mem_iff.1 ha))
    have hfb : f b ∈ u :=
      (hmem (f b)).1 (List.mem_map_of_mem f (hperm.mem_iff.1 hb))
    rcases Option.isSome_iff_exists.1 (idxOf?_isSome_of_mem hfa) with ⟨i, hi⟩
    rcases Option.isSome_iff_exists.1 (idxOf?_isSome_of_mem hfb) with ⟨j, hj⟩
    have hka : key a = i + 1 := by
      have hk := hkey a hfa
      rw [hi] at hk
      simpa using hk.symm
    have hkb : key b = j + 1 := by
      have hk := hkey b hfb
      rw [hj] at hk
      simpa using hk.symm
    have hij : i ≠ j := by
      rintro rfl
      have e1 := idxOf?_getElem? hi
      have e2 := idxOf?_getElem? hj
      rw [e1] at e2
      exact hab.2 (Option.some.inj e2)
    have hle : key a ≤ key b := hab.1
    rw [hi, hj]
    simp only [Option.getD_some]
    omega
  · rw [List.Sorted, List.pairwise_iff_getElem]
    intro i j hi hj hij
    have e1 : idxOf? u u[i] = some i :=
      getElem?_idxOf? hu (List.getElem?_eq_getElem hi)
    have e2 : idxOf? u u[j] = some j :=
      getElem?_idxOf? hu (List.getElem?_eq_getElem hj)
    rw [e1, e2]
    simpa using hij

/-- C9: when every cited id of a section exists in its pack and the pack ids
are distinct (packs are deduplicated), the emitted evidence list, which is
sorted by display number, has at index `n - 1` exactly the item assigned
display number `n`, so the reading view's `evidence[num - 1]` lookup returns
the item the text cites. -/
theorem evidence_sorted_matches_display_numbers (s : SectionData)
    (items : List EvidenceItem)
    (hcov : ∀ id ∈ uniqueIds s, ∃ it ∈ items, it.evidence_id = id)
    (hnd : (items.map (fun e => e.evidence_id)).Nodup) :
    ((convertSectionData s items).evidence).map (fun e => e.id) = uniqueIds s
    ∧ ∀ i id, (uniqueIds s)[i]? = some id →
        ∃ e, ((convertSectionData s items).evidence)[i]? = some e
          ∧ e.id = id ∧ idToNum (uniqueIds s) id = some (i + 1) := by
  have hndu : (uniqueIds s).Nodup := nodup_dedupFirst _
  have hfilter_mem : ∀ a, a ∈ (items.filter
      (fun e => (uniqueIds s).contains e.evidence_id)).map
        (fun e => e.evidence_id) ↔ a ∈ uniqueIds s := by
    intro a
    constructor
    · intro h
      rcases List.mem_map.1 h with ⟨ev, hev, rfl⟩
      exact List.mem_of_elem_eq_true (List.mem_filter.1 hev).2
    · intro h
      rcases hcov a h with ⟨it, hit, rfl⟩
      exact List.mem_map_of_mem _
        (List.mem_filter.2 ⟨hit, List.elem_eq_true_of_mem h⟩)
  have hfilter_nd : ((items.filter
      (fun e => (uniqueIds s).contains e.evidence_id)).map
        (fun e => e.evidence_id)).Nodup :=
    List.Nodup.sublist (List.Sublist.map _ (List.filter_sublist _)) hnd
  have hmain' : (List.insertionSort
      (fun a b => evSortKey (uniqueIds s) a ≤ evSortKey (uniqueIds s) b)
      (items.filter (fun e => (uniqueIds s).contains e.evidence_id))).map
        (fun e => e.evidence_id) = uniqueIds s := by
    refine insertionSort_map_eq (fun e => e.evidence_id)
      (evSortKey (uniqueIds s)) (uniqueIds s) hndu ?_ _ hfilter_mem hfilter_nd
    intro a hfa
    rcases Option.isSome_iff_exists.1 (idxOf?_isSome_of_mem hfa) with ⟨i, hi⟩
    simp only [evSortKey, idToNum, hi]
    simp
  have hmain : ((convertSectionData s items).evidence).map (fun e => e.id)
      = uniqueIds s := by
    show ((List.insertionSort
        (fun a b => evSortKey (uniqueIds s) a ≤ evSortKey (uniqueIds s) b)
        (items.filter (fun e => (uniqueIds s).contains e.evidence_id))).map
          toUIEvidence).map (fun e => e.id) = uniqueIds s
    rw [List.map_map]
    exact hmain'
  refine ⟨hmain, ?_⟩
  intro i id h
  have hm : (((convertSectionData s items).evidence).map
      (fun e => e.id))[i]? = some id := by
    rw [hmain]; exact h
  rw [List.getElem?_map] at hm
  cases he : ((convertSectionData s items).evidence)[i]? with
  | none => rw [he] at hm; simp at hm
  | some e =>
    rw [he] at hm
    simp only [Option.map_some', Option.some.injEq] at hm
    refine ⟨e, rfl, hm, ?_⟩
    rw [idToNum, getElem?_idxOf? hndu h]
    rfl

/-- Witness for C9 at the sample section and pack: the emitted ids come out
in display-number order `[ev_aaaa0000, ev_bbbb1111]`. -/
theorem evidence_sorted_matches_display_numbers_witness :
    ((convertSectionData sampleSection sampleItems).evidence).map
        (fun e => e.id) = uniqueIds sampleSection
    ∧ ∀ i id, (uniqueIds sampleSection)[i]? = some id →
        ∃ e, ((convertSectionData sampleSection sampleItems).evidence)[i]?
            = some e
          ∧ e.id = id
          ∧ idToNum (uniqueIds sampleSection) id = some (i + 1) :=
  evidence_sorted_matches_display_numbers sampleSection sampleItems
    (by decide) (by decide)

/-! ## Claim C4: marker replacement and appended citations -/

theorem strData_append (s t : String) : (s ++ t).data = s.data ++ t.data :=
  rfl

theorem hasSub_append_left {pat l : List Char} (x : List Char)
    (h : hasSub pat l = true) : hasSub pat (x ++ l) = true := by
  induction x with
  | nil => simpa using h
  | cons c cs ih =>
    show hasSub pat (c :: (cs ++ l)) = true
    rw [hasSub]
    simp only [Bool.or_eq_true]
    exact Or.inr ih

theorem hasSub_of_isPrefixOf {pat l : List Char}
    (h : List.isPrefixOf pat l = true) : hasSub pat l = true := by
  cases l with
  | nil =>
    cases pat with
    | nil => rfl
    | cons c cs => simp [List.isPrefixOf] at h
  | cons c cs =>
    rw [hasSub]
    simp only [Bool.or_eq_true]
    exact Or.inl h

theorem isPrefixOf_append_self :
    ∀ (pat r : List Char), List.isPrefixOf pat (pat ++ r) = true := by
  intro pat
  induction pat with
  | nil => intro r; cases r <;> rfl
  | cons c cs ih =>
    intro r
    show List.isPrefixOf (c :: cs) (c :: (cs ++ r)) = true
    simp [List.isPrefixOf, ih r]

theorem hasSub_append_self (pat r : List Char) :
    hasSub pat (pat ++ r) = true :=
  hasSub_of_isPrefixOf (isPrefixOf_append_self pat r)

theorem hasSub_joinAll {p : String} :
    ∀ {l : List String}, p ∈ l → hasSub p.data (joinAll l).data = true := by
  intro l
  induction l with
  | nil => intro h; simp at h
  | cons q rest ih =>
    intro h
    rcases List.mem_cons.1 h with rfl | hmem
    · show hasSub p.data (p.data ++ (joinAll rest).data) = true
      exact hasSub_append_self _ _
    · show hasSub p.data (q.data ++ (joinAll rest).data) = true
      exact hasSub_append_left _ (ih hmem)

theorem hasSub_citeString {n : Nat} {nums : List Nat} (h : n ∈ nums) :
    hasSub ("[" ++ toString n ++ "]").data (citeString nums).data = true := by
  have hlen : nums.length > 0 := List.length_pos.2 (List.ne_nil_of_mem h)
  rw [citeString, if_pos hlen]
  show hasSub _ ((" ").data
    ++ (joinAll (nums.map (fun m => "[" ++ toString m ++ "]"))).data) = true
  exact hasSub_append_left _
    (hasSub_joinAll (List.mem_map_of_mem (fun m => "[" ++ toString m ++ "]") h))

theorem idToNum_isSome_of_mem {u : List String} {id : String} (h : id ∈ u) :
    ∃ n, idToNum u id = some n := by
  rcases Option.isSome_iff_exists.1 (idxOf?_isSome_of_mem h) with ⟨i, hi⟩
  exact ⟨i + 1, by rw [idToNum, hi]; rfl⟩

/-- C4 counterexample: at `cexSection` the code's output still contains the
raw marker `ev_bbbbbbbb` in a bullet (removal of `ev_aaaaaaaa` splices it
together), and the fourth paragraph-cited id has display number 4 yet `[4]`
never appears in the output paragraph, because only the first three
paragraph citations are appended. -/
theorem citation_replacement_counterexample :
    (∃ ub ∈ (convertSectionData cexSection []).bullets,
      hasSub ("ev_bbbbbbbb").data ub.text.data = true)
    ∧ "ev_00000004" ∈ bigPictureIds cexSection
    ∧ idToNum (uniqueIds cexSection) "ev_00000004" = some 4
    ∧ hasSub ("[4]").data (convertSectionData cexSection []).bigPicture.data
        = false := by
  refine ⟨⟨{ text := "ev_bbbbbbbb [5]", evidenceId := "" }, ?_, ?_⟩, ?_, ?_, ?_⟩
  · decide
  · rfl
  · decide
  · rfl
  · rfl

/-- C4 (amended): markers are stripped from the texts and citations are
appended at the end rather than substituted in place; the display numbers of
the first three paragraph-cited ids and of the first two ids cited by each
bullet appear as `[n]` citations in the corresponding output text. Display
numbers beyond those limits are not appended, and the regex stripping can
leave behind a marker spliced together from adjacent text. -/
theorem citation_append_take_limits (s : SectionData)
    (items : List EvidenceItem) :
    ((convertSectionData s items).bigPicture
      = stripEvidenceIds s.big_picture ++ citeString (bpCiteNums s))
    ∧ (∀ id ∈ (bigPictureIds s).take 3, ∃ n,
        idToNum (uniqueIds s) id = some n
        ∧ hasSub ("[" ++ toString n ++ "]").data
            (convertSectionData s items).bigPicture.data = true)
    ∧ ∀ b ∈ s.bullets,
        convertBullet (uniqueIds s) b ∈ (convertSectionData s items).bullets
        ∧ ∀ id ∈ (bulletIds b).take 2, ∃ n,
            idToNum (uniqueIds s) id = some n
            ∧ hasSub ("[" ++ toString n ++ "]").data
                (convertBullet (uniqueIds s) b).text.data = true := by
  refine ⟨rfl, ?_, ?_⟩
  · intro id hid
    have hmem : id ∈ uniqueIds s := by
      rw [uniqueIds, mem_dedupFirst, allReferencedIds]
      exact List.mem_append_left _ (List.mem_of_mem_take hid)
    rcases idToNum_isSome_of_mem hmem with ⟨n, hn⟩
    refine ⟨n, hn, ?_⟩
    have hnums : n ∈ bpCiteNums s :=
      List.mem_filterMap.2 ⟨id, hid, hn⟩
    have hbp : (convertSectionData s items).bigPicture
        = stripEvidenceIds s.big_picture ++ citeString (bpCiteNums s) := rfl
    rw [hbp, strData_append]
    exact hasSub_append_left _ (hasSub_citeString hnums)
  · intro b hb
    refine ⟨List.mem_map_of_mem _ hb, ?_⟩
    intro id hid
    have hmem : id ∈ uniqueIds s := by
      rw [uniqueIds, mem_dedupFirst, allReferencedIds]
      refine List.mem_append_right _ (List.mem_flatten.2 ?_)
      exact ⟨bulletIds b, List.mem_map_of_mem _ hb, List.mem_of_mem_take hid⟩
    rcases idToNum_isSome_of_mem hmem with ⟨n, hn⟩
    refine ⟨n, hn, ?_⟩
    have hnums : n ∈ ((bulletIds b).take 2).filterMap (idToNum (uniqueIds s)) :=
      List.mem_filterMap.2 ⟨id, hid, hn⟩
    have hbt : (convertBullet (uniqueIds s) b).text
        = stripEvidenceIds b.text
          ++ citeString (((bulletIds b).take 2).filterMap
              (idToNum (uniqueIds s))) := rfl
    rw [hbt, strData_append]
    exact hasSub_append_left _ (hasSub_citeString hnums)

/-- Witness for the amended C4 at the counterexample section: display number
1 is cited in the output paragraph and display number 5 in the bullet. -/
theorem citation_append_take_limits_witness :
    ((convertSectionData cexSection []).bigPicture
      = stripEvidenceIds cexSection.big_picture
        ++ citeString (bpCiteNums cexSection))
    ∧ (∃ n, idToNum (uniqueIds cexSection) "ev_00000001" = some n
        ∧ hasSub ("[" ++ toString n ++ "]").data
            (convertSectionData cexSection []).bigPicture.data = true) :=
  ⟨(citation_append_take_limits cexSection []).1,
   (citation_append_take_limits cexSection []).2.1 "ev_00000001" (by decide)⟩

/-! ## Claim C5: assembly conversion is deterministic and idempotent -/

/-- C5: running the assembly conversion twice on the same metadata, section
set and evidence packs yields identical results — in particular identical
display-number assignments and identical emitted-evidence subsets. The
conversion is a pure function of its inputs. -/
theorem convert_to_ui_format_deterministic (m₁ m₂ : NewsletterMeta)
    (s₁ s₂ : List (String × SectionData))
    (p₁ p₂ : List (String × List EvidenceItem))
    (hm : m₁ = m₂) (hs : s₁ = s₂) (hp : p₁ = p₂) :
    convertToUIFormat m₁ s₁ p₁ = convertToUIFormat m₂ s₂ p₂ := by
  subst hm; subst hs; subst hp; rfl

/-- Witness for C5 at the sample inputs. -/
theorem convert_to_ui_format_deterministic_witness :
    convertToUIFormat sampleMeta [("data_centers", sampleSection)]
        [("data_centers", sampleItems)]
      = convertToUIFormat sampleMeta [("data_centers", sampleSection)]
        [("data_centers", sampleItems)] :=
  convert_to_ui_format_deterministic sampleMeta sampleMeta
    [("data_centers", sampleSection)] [("data_centers", sampleSection)]
    [("data_centers", sampleItems)] [("data_centers", sampleItems)]
    rfl rfl rfl

/-! ## Claim C7: a run with no selected verticals is aborted -/

/-- C7: when no vertical is selected, the generation handler reports an error
toast and never issues a request to the backend. -/
theorem no_verticals_selected_aborts (sel : VerticalsSel)
    (startDate endDate : String) (regions : List String) (rounds : Nat)
    (players : List (String × List String)) (provider : String)
    (strict : Bool)
    (h : sel.dataCenters = false ∧ sel.connectivity = false
      ∧ sel.towers = false) :
    handleGenerate sel startDate endDate regions rounds players provider
        strict
      = GenOutcome.aborted "Error"
          "Select at least one sector to generate a newsletter"
    ∧ ∀ req steps,
        handleGenerate sel startDate endDate regions rounds players provider
          strict ≠ GenOutcome.requested req steps := by
  rcases h with ⟨h1, h2, h3⟩
  have habort : handleGenerate sel startDate endDate regions rounds players
      provider strict
      = GenOutcome.aborted "Error"
          "Select at least one sector to generate a newsletter" := by
    rw [handleGenerate, h1, h2, h3]
    rfl
  refine ⟨habort, ?_⟩
  intro req steps hreq
  rw [habort] at hreq
  exact GenOutcome.noConfusion hreq

/-- Witness for C7: the all-false selection aborts with the error toast. -/
theorem no_verticals_selected_aborts_witness :
    handleGenerate noVerticals "2024-12-26" "2025-01-02" ["UK"] 2 [] "openai"
        false
      = GenOutcome.aborted "Error"
          "Select at least one sector to generate a newsletter"
    ∧ ∀ req steps,
        handleGenerate noVerticals "2024-12-26" "2025-01-02" ["UK"] 2 []
          "openai" false ≠ GenOutcome.requested req steps :=
  no_verticals_selected_aborts noVerticals "2024-12-26" "2025-01-02" ["UK"] 2
    [] "openai" false ⟨rfl, rfl, rfl⟩

/-! ## Claim C8: progress steps match the selected verticals -/

/-- C8: the progress step list used during generation contains a vertical's
research step exactly when that vertical is selected, and status updates
never add or remove steps, so research steps of unselected verticals are
never shown or activated. -/
theorem progress_steps_match_selection :
    (∀ sel : VerticalsSel,
      (("research_dc" ∈ (getFilteredSteps sel).map (fun st => st.id))
          ↔ sel.dataCenters = true)
      ∧ (("research_cf" ∈ (getFilteredSteps sel).map (fun st => st.id))
          ↔ sel.connectivity = true)
      ∧ (("research_tw" ∈ (getFilteredSteps sel).map (fun st => st.id))
          ↔ sel.towers = true))
    ∧ ∀ stepId status steps,
        (updateStep stepId status steps).map (fun st => st.id)
          = steps.map (fun st => st.id) := by
  constructor
  · rintro ⟨dc, cf, tw⟩
    cases dc <;> cases cf <;> cases tw <;> refine ⟨⟨?_, ?_⟩, ⟨?_, ?_⟩, ⟨?_, ?_⟩⟩ <;>
      first
        | (intro h; exact absurd h (by decide))
        | (intro h; rfl)
        | (intro h; decide)
  · intro stepId status steps
    induction steps with
    | nil => rfl
    | cons st rest ih =>
      show (updateStepOne stepId status st
          :: rest.map (updateStepOne stepId status)).map (fun st => st.id)
        = st.id :: rest.map (fun st => st.id)
      rw [List.map_cons]
      have hid : (updateStepOne stepId status st).id = st.id := by
        rw [updateStepOne]
        split
        · rfl
        · split
          · rfl
          · split <;> rfl
      rw [hid]
      exact congrArg (st.id :: ·) ih

/-! ## Claim C1: accepted drafts satisfy the grounding invariant -/

/-- C1: every draft accepted by the Reviewer has a paragraph and bullets
that each cite at least one evidence id present in the unit's pack; a draft
violating this is never eligible for acceptance because the submission gate
rejects it before review. -/
theorem reviewer_accepted_drafts_grounded (d : SpecDraft)
    (pack : List String) (sc : SpecReviewScore)
    (h : reviewerAccepts d pack sc = true) :
    (∃ id ∈ d.paragraphCites, id ∈ pack)
    ∧ ∀ b ∈ d.bullets, ∃ id ∈ b.cites, id ∈ pack := by
  have hvalid : draftCitationValid d pack = true := by
    by_cases hv : draftCitationValid d pack = true
    · exact hv
    · rw [reviewerAccepts, submitToReviewer, if_neg hv] at h
      exact Bool.noConfusion h
  rw [draftCitationValid, Bool.and_eq_true] at hvalid
  constructor
  · rcases List.any_eq_true.1 hvalid.1 with ⟨id, hid, hpk⟩
    exact ⟨id, hid, List.mem_of_elem_eq_true hpk⟩
  · intro b hb
    have hba := List.all_eq_true.1 hvalid.2 b hb
    rcases List.any_eq_true.1 hba with ⟨id, hid, hpk⟩
    exact ⟨id, hid, List.mem_of_elem_eq_true hpk⟩

/-- Witness for C1: a concrete grounded draft accepted with a passing score
indeed has its paragraph and bullet citations inside the pack. -/
theorem reviewer_accepted_drafts_grounded_witness :
    (∃ id ∈ ["ev_aaaa0000"], id ∈ ["ev_aaaa0000", "ev_bbbb1111"])
    ∧ ∀ b ∈ [SpecBullet.mk "growth" ["ev_bbbb1111"]],
        ∃ id ∈ b.cites, id ∈ ["ev_aaaa0000", "ev_bbbb1111"] :=
  reviewer_accepted_drafts_grounded
    { paragraph := "Capacity grew.", paragraphCites := ["ev_aaaa0000"],
      bullets := [SpecBullet.mk "growth" ["ev_bbbb1111"]] }
    ["ev_aaaa0000", "ev_bbbb1111"]
    { grounding := 5, clarity := 4, newsworthiness := 4, balance := 4,
      voiceFit := 4, blockingIssues := [] }
    (by decide)

/-! ## Claim C6: the fix loop terminates within the round bound -/

theorem reviewStep_status (f : String → Bool) (us : List (String × UStatus))
    (h : ∀ nu ∈ us, nu.2 = UStatus.underReview ∨ terminalU nu.2 = true) :
    ∀ nu ∈ reviewStep f us,
      terminalU nu.2 = true ∨ nu.2 = UStatus.needsFix := by
  intro nu hnu
  rcases List.mem_map.1 hnu with ⟨⟨n, st⟩, hmem, rfl⟩
  dsimp only
  by_cases hst : st = UStatus.underReview
  · rw [if_pos hst]
    cases hfn : f n
    · simp [hfn, terminalU]
    · simp [hfn, terminalU]
  · rw [if_neg hst]
    rcases h _ hmem with hur | hterm
    · exact absurd hur hst
    · exact Or.inl hterm

theorem fixLoopGo_count (accept : Nat → String → Bool) :
    ∀ (rl round : Nat) (us : List (String × UStatus)),
      (fixLoopGo accept round rl us).1 ≤ rl + 1 := by
  intro rl
  induction rl with
  | zero =>
    intro round us
    simp only [fixLoopGo]
    split
    · exact Nat.zero_le _
    · exact Nat.le_refl 1
  | succ rl ih =>
    intro round us
    simp only [fixLoopGo]
    split
    · exact Nat.zero_le _
    · exact Nat.succ_le_succ (ih (round + 1)
        (redraftStep (reviewStep (accept round) us)))

theorem fixLoopGo_terminal (accept : Nat → String → Bool) :
    ∀ (rl round : Nat) (us : List (String × UStatus)),
      (∀ nu ∈ us, nu.2 = UStatus.underReview ∨ terminalU nu.2 = true) →
      ∀ nu ∈ (fixLoopGo accept round rl us).2, terminalU nu.2 = true := by
  intro rl
  induction rl with
  | zero =>
    intro round us h
    simp only [fixLoopGo]
    split
    · rename_i hall
      intro nu hnu
      exact List.all_eq_true.1 hall nu hnu
    · intro nu hnu
      rcases List.mem_map.1 hnu with ⟨⟨n, st⟩, hmem, rfl⟩
      have hrs := reviewStep_status (accept round) us h _ hmem
      dsimp only
      by_cases hst : st = UStatus.needsFix
      · rw [if_pos hst]
        rfl
      · rw [if_neg hst]
        rcases hrs with hterm | hnf
        · exact hterm
        · exact absurd hnf hst
  | succ rl ih =>
    intro round us h
    simp only [fixLoopGo]
    split
    · rename_i hall
      intro nu hnu
      exact List.all_eq_true.1 hall nu hnu
    · intro nu hnu
      refine ih (round + 1) (redraftStep (reviewStep (accept round) us))
        ?_ nu hnu
      intro mu hmu
      rcases List.mem_map.1 hmu with ⟨⟨n, st⟩, hmem, rfl⟩
      have hrs := reviewStep_status (accept round) us h _ hmem
      dsimp only
      by_cases hst : st = UStatus.needsFix
      · rw [if_pos hst]
        exact Or.inl rfl
      · rw [if_neg hst]
        rcases hrs with hterm | hnf
        · exact Or.inr hterm
        · exact absurd hnf hst

/-- C6: whatever the per-round review outcomes, the fix loop takes at most
`max_review_rounds + 1` reviewing-to-fixing transitions and every unit that
reached the review barrier ends in a terminal status — once the round
counter exceeds the maximum, the remaining `needs_fix` units are forcibly
accepted. -/
theorem fix_loop_terminates_bounded (accept : Nat → String → Bool)
    (maxReviewRounds : Nat) (us : List (String × UStatus))
    (h : ∀ nu ∈ us, nu.2 = UStatus.underReview ∨ terminalU nu.2 = true) :
    (fixLoop accept maxReviewRounds us).1 ≤ maxReviewRounds + 1
    ∧ ∀ nu ∈ (fixLoop accept maxReviewRounds us).2,
        terminalU nu.2 = true :=
  ⟨fixLoopGo_count accept maxReviewRounds 1 us,
   fixLoopGo_terminal accept maxReviewRounds 1 us h⟩

/-- Witness for C6: with one unit that is never accepted and a bound of one
round, the loop performs two transitions (one fix round, one forced
acceptance) and the unit ends accepted. -/
theorem fix_loop_terminates_bounded_witness :
    (fixLoop neverAccept 1 oneUnitUnderReview).1 ≤ 1 + 1
    ∧ ∀ nu ∈ (fixLoop neverAccept 1 oneUnitUnderReview).2,
        terminalU nu.2 = true :=
  fix_loop_terminates_bounded neverAccept 1 oneUnitUnderReview (by decide)

/-! ## Claim C10: active-player selection -/

theorem alookup_append {α : Type} :
    ∀ (a b : List (String × α)) (k : String),
      alookup (a ++ b) k
        = match alookup a k with
          | some v => some v
          | none => alookup b k := by
  intro a
  induction a with
  | nil => intro b k; rfl
  | cons kv rest ih =>
    intro b k
    show alookup ((kv.1, kv.2) :: (rest ++ b)) k = _
    rw [alookup]
    by_cases hk : kv.1 = k
    · rw [if_pos hk]
      have : alookup ((kv.1, kv.2) :: rest) k = some kv.2 := by
        rw [alookup, if_pos hk]
      rw [this]
    · rw [if_neg hk, ih]
      have : alookup ((kv.1, kv.2) :: rest) k = alookup rest k := by
        rw [alookup, if_neg hk]
      rw [this]

theorem alookup_map_true :
    ∀ (ps : List String) (p : String), p ∈ ps →
      alookup (ps.map (fun q => (q, true))) p = some true := by
  intro ps
  induction ps with
  | nil => intro p h; simp at h
  | cons q rest ih =>
    intro p h
    show alookup ((q, true) :: rest.map (fun q => (q, true))) p = some true
    rw [alookup]
    by_cases hq : q = p
    · rw [if_pos hq]
    · rw [if_neg hq]
      rcases List.mem_cons.1 h with rfl | hmem
      · exact absurd rfl hq
      · exact ih p hmem

theorem alookup_map_update {α : Type} (k : String) (v : α) :
    ∀ (m : List (String × α)) (k' : String), k' ≠ k →
      alookup (m.map (fun p => if p.1 = k then (k, v) else p)) k'
        = alookup m k' := by
  intro m
  induction m with
  | nil => intro k' _; rfl
  | cons kv rest ih =>
    intro k' hne
    show alookup ((if kv.1 = k then (k, v) else kv)
        :: rest.map (fun p => if p.1 = k then (k, v) else p)) k' = _
    by_cases hk : kv.1 = k
    · rw [if_pos hk, alookup, if_neg (fun h => hne h.symm), ih k' hne,
        alookup, if_neg (fun h => hne ?_)]
      rw [← hk, h]
    · rw [if_neg hk, alookup]
      by_cases hk' : kv.1 = k'
      · rw [if_pos hk', alookup, if_pos hk']
      · rw [if_neg hk', ih k' hne, alookup, if_neg hk']

theorem alookup_map_update_self {α : Type} (k : String) (v : α) :
    ∀ (m : List (String × α)), (alookup m k).isSome = true →
      alookup (m.map (fun p => if p.1 = k then (k, v) else p)) k
        = some v := by
  intro m
  induction m with
  | nil => intro h; simp [alookup] at h
  | cons kv rest ih =>
    intro h
    show alookup ((if kv.1 = k then (k, v) else kv)
        :: rest.map (fun p => if p.1 = k then (k, v) else p)) k = some v
    by_cases hk : kv.1 = k
    · rw [if_pos hk, alookup, if_pos rfl]
    · rw [if_neg hk, alookup, if_neg hk]
      rw [alookup, if_neg hk] at h
      exact ih h

theorem alookup_setKey_self {α : Type} (m : List (String × α)) (k : String)
    (v : α) : alookup (setKey m k v) k = some v := by
  rw [setKey]
  by_cases hp : (alookup m k).isSome = true
  · rw [if_pos hp]
    exact alookup_map_update_self k v m hp
  · rw [if_neg hp, alookup_append]
    cases hmk : alookup m k with
    | some w => exact absurd (by rw [hmk]; rfl) hp
    | none => rw [alookup, if_pos rfl]

theorem alookup_setKey_other {α : Type} (m : List (String × α))
    (k k' : String) (v : α) (hne : k' ≠ k) :
    alookup (setKey m k v) k' = alookup m k' := by
  rw [setKey]
  by_cases hp : (alookup m k).isSome = true
  · rw [if_pos hp]
    exact alookup_map_update k v m k' hne
  · rw [if_neg hp, alookup_append]
    cases hmk : alookup m k' with
    | some w => rfl
    | none => rw [alookup, if_neg (fun h => hne h.symm)]; rfl

theorem migrateVertical_lookup (stored : List (String × Bool)) :
    ∀ (ps : List String) (p : String), p ∈ ps →
      alookup (migrateVertical stored ps) p
        = some ((alookup stored p).getD true) := by
  intro ps p hp
  rw [migrateVertical, alookup_append]
  cases hs : alookup stored p with
  | some b => rfl
  | none =>
    have hkeep : p ∈ ps.filter (fun q => (alookup stored q).isNone) :=
      List.mem_filter.2 ⟨hp, by rw [hs]; rfl⟩
    rw [alookup_map_true _ p hkeep]
    rfl

theorem getPlayerSettings_lookup (stored : Option PlayerSettings) :
    ∀ vp ∈ DEFAULT_PLAYERS, ∀ p ∈ vp.2,
      alookup ((alookup (getPlayerSettings stored) vp.1).getD []) p
        = some ((storedFlag stored vp.1 p).getD true) := by
  intro vp hvp p hp
  cases stored with
  | none =>
    have hsf : storedFlag none vp.1 p = none := rfl
    rw [hsf]
    simp only [DEFAULT_PLAYERS, List.mem_cons, List.not_mem_nil,
      or_false] at hvp
    have : alookup (getPlayerSettings none) vp.1
        = some (vp.2.map (fun q => (q, true))) := by
      rcases hvp with h | h | h
      · rw [h]; rfl
      · rw [h]; rfl
      · rw [h]; rfl
    rw [this]
    exact alookup_map_true vp.2 p hp
  | some parsed =>
    have hunfold : getPlayerSettings (some parsed)
        = setKey (setKey (setKey parsed "data_centers"
            (migrateVertical ((alookup parsed "data_centers").getD [])
              dataCentersPlayers))
          "connectivity_fibre"
            (migrateVertical ((alookup (setKey parsed "data_centers"
                (migrateVertical ((alookup parsed "data_centers").getD [])
                  dataCentersPlayers)) "connectivity_fibre").getD [])
              connectivityPlayers))
          "towers_wireless"
            (migrateVertical ((alookup (setKey (setKey parsed "data_centers"
                (migrateVertical ((alookup parsed "data_centers").getD [])
                  dataCentersPlayers))
              "connectivity_fibre"
                (migrateVertical ((alookup (setKey parsed "data_centers"
                    (migrateVertical ((alookup parsed
                      "data_centers").getD []) dataCentersPlayers))
                  "connectivity_fibre").getD []) connectivityPlayers))
              "towers_wireless").getD []) towersPlayers) := by
      rfl
    simp only [DEFAULT_PLAYERS, List.mem_cons, List.not_mem_nil,
      or_false] at hvp
    rcases hvp with h | h | h
    · rw [h] at hp ⊢
      dsimp only
      rw [hunfold,
        alookup_setKey_other _ _ _ _ (by decide),
        alookup_setKey_other _ _ _ _ (by decide),
        alookup_setKey_self]
      rw [Option.getD_some]
      exact migrateVertical_lookup _ dataCentersPlayers p hp
    · rw [h] at hp ⊢
      dsimp only
      rw [hunfold,
        alookup_setKey_other _ _ _ _ (by decide),
        alookup_setKey_self, Option.getD_some,
        alookup_setKey_other _ _ _ _ (by decide)]
      exact migrateVertical_lookup _ connectivityPlayers p hp
    · rw [h] at hp ⊢
      dsimp only
      rw [hunfold, alookup_setKey_self, Option.getD_some,
        alookup_setKey_other _ _ _ _ (by decide),
        alookup_setKey_other _ _ _ _ (by decide)]
      exact migrateVertical_lookup _ towersPlayers p hp

/-- C10 counterexample: with stored settings that contain the
`data_centers` vertical but no flag for any player, the stored flag for
`Equinix` is absent, yet `getActivePlayers` still returns `Equinix`
(the migration in `getPlayerSettings` turns absent flags into `true`), so
absent flags do not exclude a player as the claim states. -/
theorem active_players_absent_included_counterexample :
    storedFlag cexStored "data_centers" "Equinix" = none
    ∧ "Equinix"
        ∈ (alookup (getActivePlayers cexStored []) "data_centers").getD [] := by
  constructor
  · rfl
  · decide

/-- C10 (amended): `getActivePlayers` returns, per vertical, precisely the
default players whose stored flag is not explicitly `false` — a flag that is
absent (or whole-vertical/whole-storage absence) is migrated to `true` and
the player is included — each mapped through its custom name; and
`getPlayerSettings` assigns an explicit boolean to every default player of
every vertical. -/
theorem active_players_migrated_exact (stored : Option PlayerSettings)
    (names : PlayerNames) :
    ∀ vp ∈ DEFAULT_PLAYERS,
      alookup (getActivePlayers stored names) vp.1
        = some ((vp.2.filter
              (fun p => storedFlag stored vp.1 p ≠ some false)).map
            (displayName ((alookup names vp.1).getD [])))
      ∧ ∀ p ∈ vp.2, ∃ b : Bool,
          alookup ((alookup (getPlayerSettings stored) vp.1).getD []) p
            = some b := by
  intro vp hvp
  have hlk := getPlayerSettings_lookup stored vp hvp
  refine ⟨?_, fun p hp => ⟨(storedFlag stored vp.1 p).getD true, hlk p hp⟩⟩
  have hfilter : vp.2.filter
        (fun p => alookup ((alookup (getPlayerSettings stored) vp.1).getD [])
            p = some true)
      = vp.2.filter (fun p => storedFlag stored vp.1 p ≠ some false) := by
    refine List.filter_congr ?_
    intro p hp
    rw [hlk p hp]
    cases hf : storedFlag stored vp.1 p with
    | none => simp
    | some b => cases b <;> simp
  have hvp' := hvp
  simp only [DEFAULT_PLAYERS, List.mem_cons, List.not_mem_nil,
    or_false] at hvp'
  rcases hvp' with h | h | h
  · rw [h] at hfilter ⊢
    dsimp only at hfilter ⊢
    have hga : alookup (getActivePlayers stored names) "data_centers"
        = some ((dataCentersPlayers.filter
              (fun p => alookup ((alookup (getPlayerSettings stored)
                  "data_centers").getD []) p = some true)).map
            (displayName ((alookup names "data_centers").getD []))) := rfl
    rw [hga, hfilter]
  · rw [h] at hfilter ⊢
    dsimp only at hfilter ⊢
    have hga : alookup (getActivePlayers stored names) "connectivity_fibre"
        = some ((connectivityPlayers.filter
              (fun p => alookup ((alookup (getPlayerSettings stored)
                  "connectivity_fibre").getD []) p = some true)).map
            (displayName ((alookup names "connectivity_fibre").getD []))) :=
      rfl
    rw [hga, hfilter]
  · rw [h] at hfilter ⊢
    dsimp only at hfilter ⊢
    have hga : alookup (getActivePlayers stored names) "towers_wireless"
        = some ((towersPlayers.filter
              (fun p => alookup ((alookup (getPlayerSettings stored)
                  "towers_wireless").getD []) p = some true)).map
            (displayName ((alookup names "towers_wireless").getD []))) := rfl
    rw [hga, hfilter]

/-- Witness for the amended C10 at the counterexample storage: the whole
`data_centers` active list equals the not-explicitly-false default players
under their display names, and every default player has an explicit
migrated flag. -/
theorem active_players_migrated_exact_witness :
    alookup (getActivePlayers cexStored []) "data_centers"
      = some ((dataCentersPlayers.filter
            (fun p => storedFlag cexStored "data_centers" p ≠ some false)).map
          (displayName ((alookup ([] : PlayerNames) "data_centers").getD [])))
    ∧ ∀ p ∈ dataCentersPlayers, ∃ b : Bool,
        alookup ((alookup (getPlayerSettings cexStored)
            "data_centers").getD []) p = some b :=
  active_players_migrated_exact cexStored []
    ("data_centers", dataCentersPlayers) (by decide)

end NewsVerif
